import Mathlib

/-!
Shallow embedding of the primitive codec of `src/types/mod.rs` (a Cassandra
CQL binary protocol client, crate `cdrs`), together with theorems checking the
natural-language specification against it.

Modelling conventions:
* A Rust `Vec<u8>` / byte buffer is a `List Nat` whose elements are byte
  values; encoders only ever produce elements `< 256`.
* `std::io::Cursor<Vec<u8>>` is a `Cursor` structure: the underlying data and
  a `u64` position.  Position arithmetic is `u64`, so updates are taken
  `% 2^64`.
* Machine-integer casts (`as u64`, `as i32`, `as i16`, `as u16`) are explicit
  functions on `Nat`/`Int` with the two's-complement wrap-around of Rust.
* `cursor_next_value` in the source allocates an uninitialised buffer of the
  requested length and reads into it; when fewer bytes remain, the tail of the
  buffer keeps its uninitialised contents.  The model fills that tail with the
  fixed byte `junkByte`; no theorem below depends on the value of those bytes.
* A Rust panic whose cause is one of the spec's codec error kinds (the
  `String::from_utf8(..).unwrap()` UTF-8 failure, the `byteorder::write_uint`
  assertion that a length fits the requested width, the
  `decode_inet(..).unwrap()` failure) is modelled as `Except.error` of the
  corresponding `CError`.  Functions with no failing path stay total.
-/

namespace Cdrs

/-- Codec-level error kinds named by the spec (section 7). -/
inductive CError where
  | invalidUtf8
  | invalidInet
  | overflow
deriving DecidableEq

/-- Model of `std::io::Cursor<Vec<u8>>`: buffer plus `u64` read position. -/
structure Cursor where
  data : List Nat
  pos : Nat
deriving DecidableEq

/-- `pub const SHORT_LEN: usize = 2;` -/
def SHORT_LEN : Nat := 2

/-- `pub const INT_LEN: usize = 4;` -/
def INT_LEN : Nat := 4

/-- Value used for the bytes of the uninitialised buffer tail produced by
`cursor_next_value` when the buffer is truncated (`unsafe set_len` in the
source).  The theorems below never depend on this value. -/
def junkByte : Nat := 0

/-- Model of `cursor_next_value` (src/types/mod.rs:391-404).  It allocates a
buffer of length `len`, reads `min len remaining` bytes into it from the
cursor (a `Cursor` read never returns `Err`, so the panic branch is dead
code), and then sets the position to `current_position + len`
unconditionally. -/
def cursor_next_value (c : Cursor) (len : Nat) : List Nat × Cursor :=
  let avail := c.data.length - c.pos
  let n := min len avail
  ((c.data.drop c.pos).take len ++ List.replicate (len - n) junkByte,
   ⟨c.data, (c.pos + len) % 2 ^ 64⟩)

/-- Model of `from_bytes` (src/types/mod.rs:98-100): big-endian unsigned
integer of all the bytes of the list (`read_uint::<BigEndian>(len)`). -/
def from_bytes (bs : List Nat) : Nat :=
  bs.foldl (fun a b => a * 256 + b) 0

/-- Model of `to_short` (src/types/mod.rs:113-115), i.e.
`to_n_bytes(int, 2)`: `byteorder`'s `write_uint` writes the two big-endian
bytes and asserts that the value fits in two bytes, so a value `≥ 2^16`
panics; that panic is modelled as an `overflow` error. -/
def to_short (n : Nat) : Except CError (List Nat) :=
  if n < 2 ^ 16 then .ok [n / 256, n % 256] else .error .overflow

/-- Model of `to_int` (src/types/mod.rs:118-120), i.e. `i_to_n_bytes(int, 4)`:
`byteorder`'s `write_int` masks the `i64` to its low four bytes
(`unextend_sign`) and writes them big-endian; it never panics. -/
def to_int (i : Int) : List Nat :=
  let m := (i % (2 ^ 32 : Int)).toNat
  [m / 2 ^ 24 % 256, m / 2 ^ 16 % 256, m / 2 ^ 8 % 256, m % 256]

/-- Rust cast `u64 as i32`: keep the low 32 bits, two's complement. -/
def u64_as_i32 (n : Nat) : Int :=
  let m : Nat := n % 2 ^ 32
  if m < 2 ^ 31 then (m : Int) else (m : Int) - 2 ^ 32

/-- Rust cast `u64 as i16`: keep the low 16 bits, two's complement. -/
def u64_as_i16 (n : Nat) : Int :=
  let m : Nat := n % 2 ^ 16
  if m < 2 ^ 15 then (m : Int) else (m : Int) - 2 ^ 16

/-- Rust cast of a signed value to `u64` (sign-extend, then reinterpret). -/
def int_as_u64 (i : Int) : Nat := (i % (2 ^ 64 : Int)).toNat

/-- Rust cast of a signed value to `u16` (truncate to the low 16 bits). -/
def int_as_u16 (i : Int) : Nat := (i % (2 ^ 16 : Int)).toNat

/-- UTF-8 validity of a byte sequence, exactly the check performed by Rust's
`String::from_utf8`: it accepts precisely the standard UTF-8 encodings of
scalar values (no overlong forms, no surrogates, maximum `U+10FFFF`). -/
def utf8Validate : List Nat → Bool
  | [] => true
  | b :: t =>
    if b ≤ 0x7F then utf8Validate t
    else if 0xC2 ≤ b ∧ b ≤ 0xDF then
      match t with
      | c1 :: t1 => (0x80 ≤ c1 && c1 ≤ 0xBF) && utf8Validate t1
      | [] => false
    else if b = 0xE0 then
      match t with
      | c1 :: c2 :: t2 =>
        (0xA0 ≤ c1 && c1 ≤ 0xBF) && (0x80 ≤ c2 && c2 ≤ 0xBF) && utf8Validate t2
      | _ => false
    else if (0xE1 ≤ b ∧ b ≤ 0xEC) ∨ b = 0xEE ∨ b = 0xEF then
      match t with
      | c1 :: c2 :: t2 =>
        (0x80 ≤ c1 && c1 ≤ 0xBF) && (0x80 ≤ c2 && c2 ≤ 0xBF) && utf8Validate t2
      | _ => false
    else if b = 0xED then
      match t with
      | c1 :: c2 :: t2 =>
        (0x80 ≤ c1 && c1 ≤ 0x9F) && (0x80 ≤ c2 && c2 ≤ 0xBF) && utf8Validate t2
      | _ => false
    else if b = 0xF0 then
      match t with
      | c1 :: c2 :: c3 :: t3 =>
        (0x90 ≤ c1 && c1 ≤ 0xBF) && (0x80 ≤ c2 && c2 ≤ 0xBF) &&
          (0x80 ≤ c3 && c3 ≤ 0xBF) && utf8Validate t3
      | _ => false
    else if 0xF1 ≤ b ∧ b ≤ 0xF3 then
      match t with
      | c1 :: c2 :: c3 :: t3 =>
        (0x80 ≤ c1 && c1 ≤ 0xBF) && (0x80 ≤ c2 && c2 ≤ 0xBF) &&
          (0x80 ≤ c3 && c3 ≤ 0xBF) && utf8Validate t3
      | _ => false
    else if b = 0xF4 then
      match t with
      | c1 :: c2 :: c3 :: t3 =>
        (0x80 ≤ c1 && c1 ≤ 0x8F) && (0x80 ≤ c2 && c2 ≤ 0xBF) &&
          (0x80 ≤ c3 && c3 ≤ 0xBF) && utf8Validate t3
      | _ => false
    else false

/-- Model of `CString` (src/types/mod.rs:122-125): the field holds the UTF-8
bytes of the Rust `String`. -/
structure CString where
  string : List Nat
deriving DecidableEq

/-- Model of `CString::into_cbytes` (src/types/mod.rs:150-159):
`to_short(self.string.len())` followed by the string's bytes.  The
`write_uint` panic for lengths `≥ 2^16` surfaces as `overflow`. -/
def CString.into_cbytes (s : CString) : Except CError (List Nat) :=
  match to_short s.string.length with
  | .error e => .error e
  | .ok l => .ok (l ++ s.string)

/-- Model of `CString::from_cursor` (src/types/mod.rs:161-171): read
`SHORT_LEN` length bytes, then that many body bytes, then
`String::from_utf8(..).unwrap()`; the unwrap panic on invalid UTF-8 surfaces
as `invalidUtf8`. -/
def CString.from_cursor (c : Cursor) : Except CError (CString × Cursor) :=
  let r1 := cursor_next_value c SHORT_LEN
  let len := from_bytes r1.1
  let r2 := cursor_next_value r1.2 len
  if utf8Validate r2.1 then .ok (⟨r2.1⟩, r2.2) else .error .invalidUtf8

/-- Model of `CInt::from_cursor` (src/types/mod.rs:345-350): read `INT_LEN`
bytes, big-endian unsigned, then cast `as i32`. -/
def CInt.from_cursor (c : Cursor) : Int × Cursor :=
  let r := cursor_next_value c INT_LEN
  (u64_as_i32 (from_bytes r.1), r.2)

/-- Model of `CIntShort::from_cursor` (src/types/mod.rs:355-360): read
`SHORT_LEN` bytes, big-endian unsigned, then cast `as i16`. -/
def CIntShort.from_cursor (c : Cursor) : Int × Cursor :=
  let r := cursor_next_value c SHORT_LEN
  (u64_as_i16 (from_bytes r.1), r.2)

/-- Model of `CBytes` (src/types/mod.rs:266-270): a single byte vector, with
no separate null or not-set state. -/
structure CBytes where
  bytes : List Nat
deriving DecidableEq

/-- Model of `CBytes::from_cursor` (src/types/mod.rs:285-292): read the
`[int]` length via `CInt::from_cursor`, cast it `as u64`, and read that many
bytes. -/
def CBytes.from_cursor (c : Cursor) : CBytes × Cursor :=
  let r0 := CInt.from_cursor c
  let len := int_as_u64 r0.1
  let r := cursor_next_value r0.2 len
  (⟨r.1⟩, r.2)

/-- Model of `CBytes::into_cbytes` (src/types/mod.rs:295-303):
`to_int(self.bytes.len() as i64)` followed by the bytes. -/
def CBytes.into_cbytes (b : CBytes) : List Nat :=
  to_int (b.bytes.length : Int) ++ b.bytes

/-- Model of `CBytesShort` (src/types/mod.rs:305-309). -/
structure CBytesShort where
  bytes : List Nat
deriving DecidableEq

/-- Model of `CBytesShort::from_cursor` (src/types/mod.rs:321-328): read the
`[short]` length via `CIntShort::from_cursor`, cast it `as u64`, and read
that many bytes. -/
def CBytesShort.from_cursor (c : Cursor) : CBytesShort × Cursor :=
  let r0 := CIntShort.from_cursor c
  let len := int_as_u64 r0.1
  let r := cursor_next_value r0.2 len
  (⟨r.1⟩, r.2)

/-- Model of `CBytesShort::into_cbytes` (src/types/mod.rs:331-339):
`to_short(self.bytes.len())` followed by the bytes. -/
def CBytesShort.into_cbytes (b : CBytesShort) : Except CError (List Nat) :=
  match to_short b.bytes.length with
  | .error e => .error e
  | .ok l => .ok (l ++ b.bytes)

/-- An IP address as produced by inet decoding: 4 or 16 address bytes. -/
inductive IpAddr where
  | v4 (bytes : List Nat)
  | v6 (bytes : List Nat)
deriving DecidableEq

/-- Modelled from the spec: `decode_inet` lives in
`src/types/data_serialization_types.rs`, which is not among the provided
source files.  The spec says the address size must be 4 or 16 and that any
other size is `InvalidInet`. -/
def decode_inet (bs : List Nat) : Except CError IpAddr :=
  if bs.length = 4 then .ok (.v4 bs)
  else if bs.length = 16 then .ok (.v6 bs)
  else .error .invalidInet

/-- Model of `CInet` (src/types/mod.rs:374-377): the `SocketAddr` is an IP
address plus a `u16` port. -/
structure CInet where
  ip : IpAddr
  port : Nat
deriving DecidableEq

/-- Model of `CInet::from_cursor` (src/types/mod.rs:379-389): read the size
via `CIntShort::from_cursor` (two bytes), read `n as u64` address bytes,
`decode_inet(bytes).unwrap()` (the unwrap panic surfaces as the decode
error), then the `[int]` port, truncated `as u16`. -/
def CInet.from_cursor (c : Cursor) : Except CError (CInet × Cursor) :=
  let r0 := CIntShort.from_cursor c
  let r1 := cursor_next_value r0.2 (int_as_u64 r0.1)
  match decode_inet r1.1 with
  | .error e => .error e
  | .ok ip =>
    let r2 := CInt.from_cursor r1.2
    .ok (⟨ip, int_as_u16 r2.1⟩, r2.2)

/-! ## General lemmas about the cursor primitive -/

/-- The buffer returned by `cursor_next_value` always has exactly the
requested length, whatever remains in the cursor. -/
theorem cursor_next_value_length (c : Cursor) (len : Nat) :
    (cursor_next_value c len).1.length = len := by
  simp only [cursor_next_value, List.length_append, List.length_take,
    List.length_drop, List.length_replicate]
  omega

/-- The cursor position after `cursor_next_value` is unconditionally the old
position plus the requested length (as a `u64`). -/
theorem cursor_next_value_cursor (c : Cursor) (len : Nat) :
    (cursor_next_value c len).2 = ⟨c.data, (c.pos + len) % 2 ^ 64⟩ := rfl

/-- Reading `b.length` bytes at position `a.length` of `a ++ b ++ t` yields
exactly `b` and advances the position past it. -/
theorem cursor_next_value_at (a b t : List Nat) :
    cursor_next_value ⟨a ++ b ++ t, a.length⟩ b.length =
      (b, ⟨a ++ b ++ t, (a.length + b.length) % 2 ^ 64⟩) := by
  have h1 : (a ++ b ++ t).drop a.length = b ++ t := by
    rw [List.append_assoc, List.drop_left]
  have h2 : (b ++ t).take b.length = b := List.take_left b t
  have h3 : min b.length ((a ++ b ++ t).length - a.length) = b.length :=
    Nat.min_eq_left (by simp only [List.length_append]; omega)
  simp only [cursor_next_value, h1, h2, h3, Nat.sub_self, List.replicate_zero,
    List.append_nil]

/-- Evaluation of `CString.from_cursor` on a buffer that starts with the two
big-endian length bytes of `body` followed by `body` and arbitrary trailing
bytes. -/
theorem CString_from_cursor_eval (body t : List Nat) (h : body.length < 2 ^ 16) :
    CString.from_cursor ⟨[body.length / 256, body.length % 256] ++ body ++ t, 0⟩ =
      if utf8Validate body then
        .ok (⟨body⟩, ⟨[body.length / 256, body.length % 256] ++ body ++ t,
          2 + body.length⟩)
      else .error .invalidUtf8 := by
  have e1 : cursor_next_value
      ⟨[body.length / 256, body.length % 256] ++ body ++ t, 0⟩ 2 =
      ([body.length / 256, body.length % 256],
        ⟨[body.length / 256, body.length % 256] ++ body ++ t, 2⟩) := by
    have h := cursor_next_value_at [] [body.length / 256, body.length % 256] (body ++ t)
    simpa [List.append_assoc] using h
  have e2 : cursor_next_value
      ⟨[body.length / 256, body.length % 256] ++ body ++ t, 2⟩ body.length =
      (body, ⟨[body.length / 256, body.length % 256] ++ body ++ t,
        2 + body.length⟩) := by
    have h := cursor_next_value_at [body.length / 256, body.length % 256] body t
    have hmb : (2 + body.length) % 18446744073709551616 = 2 + body.length :=
      Nat.mod_eq_of_lt (by omega)
    simpa [hmb] using h
  have hfb : from_bytes [body.length / 256, body.length % 256] = body.length := by
    simp only [from_bytes, List.foldl_cons, List.foldl_nil]
    omega
  simp only [CString.from_cursor, SHORT_LEN, e1, hfb, e2]

/-- Evaluation of `CBytesShort.into_cbytes` when the length fits a
`[short]`. -/
theorem CBytesShort_into_cbytes_eval (b : CBytesShort)
    (h : b.bytes.length < 2 ^ 16) :
    CBytesShort.into_cbytes b =
      .ok ([b.bytes.length / 256, b.bytes.length % 256] ++ b.bytes) := by
  unfold CBytesShort.into_cbytes to_short
  rw [if_pos h]

/-- The length of the byte vector produced by `CBytesShort.from_cursor` is
whatever the two length bytes decode to through the `as i16` / `as u64`
casts. -/
theorem CBytesShort_from_cursor_len (c : Cursor) :
    (CBytesShort.from_cursor c).1.bytes.length =
      int_as_u64 (u64_as_i16 (from_bytes (cursor_next_value c SHORT_LEN).1)) := by
  simp only [CBytesShort.from_cursor, CIntShort.from_cursor,
    cursor_next_value_length]

/-! ## Claim theorems -/

/-- C1: the claim says the `[bytes]` codec distinguishes present, null
(length −1) and not-set (length −2) states surviving round-trips, and that
`FF FF FF FF` decodes to the null state.  The code has no such states:
`CBytes` is a single byte vector, and decoding `FF FF FF FF` reads the
`[int]` −1, casts it `as u64`, and asks the cursor for `2^64 − 1` bytes (in
the running program that allocation panics), instead of producing a null
value. -/
theorem C1_null_bytes_bug :
    (CInt.from_cursor ⟨[255, 255, 255, 255], 0⟩).1 = -1 ∧
    (CBytes.from_cursor ⟨[255, 255, 255, 255], 0⟩).1.bytes.length = 2 ^ 64 - 1 := by
  refine ⟨by decide, ?_⟩
  have h : (CBytes.from_cursor ⟨[255, 255, 255, 255], 0⟩).1.bytes =
      (cursor_next_value ⟨[255, 255, 255, 255], 4⟩ (int_as_u64 (-1))).1 := rfl
  rw [h, cursor_next_value_length]
  decide

/-- C2: the claim says `[inet]` decoding reads a single `[byte]` address-size
field.  The code reads a two-byte `[short]` via `CIntShort::from_cursor`, so
on the protocol-valid IPv4 encoding `04 7F 00 00 01 00 00 00 50` it takes
`0x047F = 1151` as the address size and fails with `InvalidInet` instead of
decoding 127.0.0.1:80. -/
theorem C2_inet_bug :
    (CIntShort.from_cursor ⟨[4, 127, 0, 0, 1, 0, 0, 0, 80], 0⟩).1 = 1151 ∧
    CInet.from_cursor ⟨[4, 127, 0, 0, 1, 0, 0, 0, 80], 0⟩ = .error .invalidInet := by
  refine ⟨by decide, ?_⟩
  set_option maxRecDepth 40000 in exact rfl

/-- C3: the claim says decoding a fixed-width primitive from a buffer with
too few bytes fails with `Truncated`.  The code has no such error path:
`cursor_next_value` fabricates a buffer of the full requested length (the
missing tail is uninitialised memory) and the decoders return a value, with
the cursor advanced past the end of the buffer. -/
theorem C3_truncated_bug :
    (cursor_next_value ⟨[0], 0⟩ SHORT_LEN).1.length = SHORT_LEN ∧
    (CIntShort.from_cursor ⟨[0], 0⟩).2.pos = 2 ∧
    (CInt.from_cursor ⟨[0, 0], 0⟩).2.pos = 4 := by
  exact ⟨by decide, by decide, by decide⟩

/-- C4: decoding a `[string]` whose body bytes are not valid UTF-8 fails with
`InvalidUtf8` (the `String::from_utf8(..).unwrap()` panic, modelled as the
error) rather than returning a value. -/
theorem C4_invalid_utf8_error (lb body t : List Nat)
    (he : to_short body.length = .ok lb) (hu : utf8Validate body = false) :
    CString.from_cursor ⟨lb ++ body ++ t, 0⟩ = .error .invalidUtf8 := by
  have hlen : body.length < 2 ^ 16 := by
    by_contra hc
    unfold to_short at he
    rw [if_neg hc] at he
    exact Except.noConfusion he
  have hlb : lb = [body.length / 256, body.length % 256] := by
    unfold to_short at he
    rw [if_pos hlen] at he
    injection he with he2
    exact he2.symm
  subst hlb
  rw [CString_from_cursor_eval body t hlen]
  simp [hu]

/-- Witness for C4 at the concrete invalid body `[0xFF]`. -/
theorem C4_invalid_utf8_error_witness :
    CString.from_cursor ⟨[0, 1, 255], 0⟩ = .error .invalidUtf8 :=
  C4_invalid_utf8_error [0, 1] [255] [] (by rfl) (by decide)

/-- C5: encoding a string whose UTF-8 byte length exceeds 65535 as a
`[string]` fails with `Overflow` (the `byteorder` two-byte width assertion,
modelled as the error) rather than emitting bytes. -/
theorem C5_string_encode_overflow (s : CString) (h : s.string.length > 65535) :
    CString.into_cbytes s = .error .overflow := by
  have hn : ¬ s.string.length < 2 ^ 16 := by omega
  unfold CString.into_cbytes to_short
  rw [if_neg hn]

/-- Witness for C5 at a string of 65536 bytes. -/
theorem C5_string_encode_overflow_witness :
    CString.into_cbytes ⟨List.replicate 65536 97⟩ = .error .overflow :=
  C5_string_encode_overflow ⟨List.replicate 65536 97⟩
    (by show (List.replicate 65536 97).length > 65535
        rw [List.length_replicate]
        norm_num)

/-- C6: for every valid string of at most 65535 UTF-8 bytes, encoding as a
`[string]` and decoding the result yields the string back; the encoding is
the two big-endian length bytes followed by the body. -/
theorem C6_string_roundtrip (s : List Nat) (hv : utf8Validate s = true)
    (hl : s.length ≤ 65535) :
    CString.into_cbytes ⟨s⟩ = .ok ([s.length / 256, s.length % 256] ++ s) ∧
    CString.from_cursor ⟨[s.length / 256, s.length % 256] ++ s, 0⟩ =
      .ok (⟨s⟩, ⟨[s.length / 256, s.length % 256] ++ s, 2 + s.length⟩) := by
  have hlen : s.length < 2 ^ 16 := by omega
  constructor
  · unfold CString.into_cbytes to_short
    rw [if_pos hlen]
  · have h := CString_from_cursor_eval s [] hlen
    rw [List.append_nil] at h
    rw [h, if_pos hv]

/-- Witness for C6 at "foo": encode gives `00 03 66 6F 6F` and decode gives
"foo" back. -/
theorem C6_string_roundtrip_witness :
    CString.into_cbytes ⟨[102, 111, 111]⟩ = .ok [0, 3, 102, 111, 111] ∧
    CString.from_cursor ⟨[0, 3, 102, 111, 111], 0⟩ =
      .ok (⟨[102, 111, 111]⟩, ⟨[0, 3, 102, 111, 111], 5⟩) :=
  C6_string_roundtrip [102, 111, 111] (by decide) (by decide)

/-- C7: the claim says `[short]` decodes to the unsigned big-endian value, so
`FF FF` gives 65535.  The code casts the value `as i16`, so `FF FF` decodes
to −1. -/
theorem C7_short_signed_bug :
    (CIntShort.from_cursor ⟨[255, 255], 0⟩).1 = -1 := by decide

/-- C8: bounded consumption — a successful `CString.from_cursor` advances the
cursor by exactly 2 plus the body length, and `CBytes.from_cursor` by exactly
4 plus the body length. -/
theorem C8_bounded_consumption :
    (∀ (c : Cursor) (s : CString) (c2 : Cursor),
      CString.from_cursor c = .ok (s, c2) →
      c.pos + SHORT_LEN + s.string.length < 2 ^ 64 →
      c2.pos = c.pos + SHORT_LEN + s.string.length) ∧
    (∀ (c : Cursor) (b : CBytes) (c2 : Cursor),
      CBytes.from_cursor c = (b, c2) →
      c.pos + INT_LEN + b.bytes.length < 2 ^ 64 →
      c2.pos = c.pos + INT_LEN + b.bytes.length) := by
  constructor
  · intro c s c2 h hb
    simp only [CString.from_cursor] at h
    split at h
    · rw [Except.ok.injEq, Prod.mk.injEq] at h
      obtain ⟨hs, hc⟩ := h
      subst hs
      subst hc
      simp only [cursor_next_value_length, cursor_next_value_cursor,
        SHORT_LEN] at hb ⊢
      omega
    · exact Except.noConfusion h
  · intro c b c2 h hb
    simp only [CBytes.from_cursor, CInt.from_cursor] at h
    rw [Prod.mk.injEq] at h
    obtain ⟨hbb, hc⟩ := h
    subst hbb
    subst hc
    simp only [cursor_next_value_length, cursor_next_value_cursor,
      INT_LEN] at hb ⊢
    omega

/-- Witness for C8: the "foo" `[string]` decode consumes exactly 5 bytes and
the `[1,2,3]` `[bytes]` decode exactly 7. -/
theorem C8_bounded_consumption_witness :
    (Cursor.mk [0, 3, 102, 111, 111] 5).pos =
      (Cursor.mk [0, 3, 102, 111, 111] 0).pos + SHORT_LEN +
        (CString.mk [102, 111, 111]).string.length ∧
    (Cursor.mk [0, 0, 0, 3, 1, 2, 3] 7).pos =
      (Cursor.mk [0, 0, 0, 3, 1, 2, 3] 0).pos + INT_LEN +
        (CBytes.mk [1, 2, 3]).bytes.length :=
  ⟨C8_bounded_consumption.1 ⟨[0, 3, 102, 111, 111], 0⟩ ⟨[102, 111, 111]⟩
      ⟨[0, 3, 102, 111, 111], 5⟩ rfl (by decide),
   C8_bounded_consumption.2 ⟨[0, 0, 0, 3, 1, 2, 3], 0⟩ ⟨[1, 2, 3]⟩
      ⟨[0, 0, 0, 3, 1, 2, 3], 7⟩ rfl (by decide)⟩

/-- C9: the concrete `[bytes]`/`[short bytes]` encodings of `[1,2,3]` and
their decodings are as the claim states; but the universal round-trip fails:
a `[short bytes]` body of 32768 bytes encodes with length bytes `80 00`,
which decode back (through the `as i16` and `as u64` casts) as a request for
`2^64 − 32768` bytes, not 32768, so decoding does not return the original
vector. -/
theorem C9_bytes_roundtrip_bug :
    CBytes.into_cbytes ⟨[1, 2, 3]⟩ = [0, 0, 0, 3, 1, 2, 3] ∧
    CBytesShort.into_cbytes ⟨[1, 2, 3]⟩ = .ok [0, 3, 1, 2, 3] ∧
    CBytes.from_cursor ⟨[0, 0, 0, 3, 1, 2, 3], 0⟩ =
      (⟨[1, 2, 3]⟩, ⟨[0, 0, 0, 3, 1, 2, 3], 7⟩) ∧
    CBytesShort.from_cursor ⟨[0, 3, 1, 2, 3], 0⟩ =
      (⟨[1, 2, 3]⟩, ⟨[0, 3, 1, 2, 3], 5⟩) ∧
    CBytesShort.into_cbytes ⟨List.replicate 32768 0⟩ =
      .ok ([128, 0] ++ List.replicate 32768 0) ∧
    (CBytesShort.from_cursor ⟨[128, 0] ++ List.replicate 32768 0, 0⟩).1.bytes.length =
      2 ^ 64 - 32768 := by
  have hrl : (CBytesShort.mk (List.replicate 32768 0)).bytes.length = 32768 :=
    List.length_replicate 32768 0
  refine ⟨rfl, rfl, rfl, rfl, ?_, ?_⟩
  · rw [CBytesShort_into_cbytes_eval ⟨List.replicate 32768 0⟩
      (by rw [hrl]; norm_num), hrl]
  · have e1 : cursor_next_value ⟨[128, 0] ++ List.replicate 32768 0, 0⟩ SHORT_LEN =
        ([128, 0], ⟨[128, 0] ++ List.replicate 32768 0, 2⟩) := by
      have h := cursor_next_value_at [] [128, 0] (List.replicate 32768 0)
      rw [List.nil_append] at h
      exact h
    have hlen : int_as_u64 (u64_as_i16 (from_bytes [128, 0])) = 2 ^ 64 - 32768 := by
      decide
    rw [CBytesShort_from_cursor_len, e1]
    exact hlen

/-- C10: `cursor_next_value` always leaves the position at the old position
plus the requested length — even past the end of the buffer — and always
returns a buffer of exactly the requested length. -/
theorem C10_cursor_advance (c : Cursor) (len : Nat) (h : c.pos + len < 2 ^ 64) :
    (cursor_next_value c len).2.pos = c.pos + len ∧
    (cursor_next_value c len).1.length = len := by
  refine ⟨?_, cursor_next_value_length c len⟩
  rw [cursor_next_value_cursor]
  exact Nat.mod_eq_of_lt h

/-- Witness for C10: requesting 5 bytes from a 1-byte buffer still advances
the position to 5 and returns 5 bytes. -/
theorem C10_cursor_advance_witness :
    (cursor_next_value ⟨[0], 0⟩ 5).2.pos = 0 + 5 ∧
    (cursor_next_value ⟨[0], 0⟩ 5).1.length = 5 :=
  C10_cursor_advance ⟨[0], 0⟩ 5 (by decide)

end Cdrs
